import Mathlib

/-!
Verification of the tfsnippet repository: shape utilities
(`tfsnippet/utils/shape_utils.py`) and the trainer hook/epoch/step driver
(`tfsnippet/trainer/base_trainer.py`), shallowly embedded in Lean 4.

Python `raise ValueError` is embedded as `Except.error`; tensors are
modelled by their runtime dimension list, a static-knowledge mask and a
flat data list; the TensorFlow engine functions (`tf.reshape`, `tf.shape`,
`tf.concat`) are modelled by their mathematical specifications.
-/

namespace TFSnippet

/-! ## resolve_negative_axis (shape_utils.py, lines 37-64) -/

/-- One iteration of the loop body of `resolve_negative_axis`: a negative
index is shifted by `ndims`, then the result is range-checked. -/
def resolveAxisElem (ndims : Int) (a : Int) : Int :=
  if a < 0 then a + ndims else a

/-- Embedding of `resolve_negative_axis(ndims, axis)`: resolve all negative axis indices
into positive ones, raising `ValueError` when a resolved index is out of
the range `[0, ndims)`. -/
def resolve_negative_axis (ndims : Int) (axis : List Int) : Except String (List Int) :=
  match axis with
  | [] => Except.ok []
  | a :: rest =>
    let a' := resolveAxisElem ndims a
    if a' < 0 ∨ a' ≥ ndims then
      Except.error "axis out of range"
    else
      match resolve_negative_axis ndims rest with
      | Except.ok l => Except.ok (a' :: l)
      | Except.error e => Except.error e

/-- Whether the resolved image of `a` is a valid index for rank `ndims`. -/
def axisInRange (ndims : Int) (a : Int) : Prop :=
  0 ≤ resolveAxisElem ndims a ∧ resolveAxisElem ndims a < ndims

instance (ndims a : Int) : Decidable (axisInRange ndims a) := by
  unfold axisInRange; infer_instance

/-! ## concat_shapes (shape_utils.py, lines 246-266) -/

/-- A shape argument to `concat_shapes`: either a plain tuple of integers
or a tensor object (`tf.Tensor` carrying its runtime integer entries),
as distinguished by `is_tensor_object`. -/
inductive ShapeArg where
  | tup : List Int → ShapeArg
  | tens : List Int → ShapeArg
  deriving DecidableEq, Repr

/-- Embedding of `is_tensor_object(s)` (from `type_utils`): discriminates tensor objects
from plain tuples. -/
def is_tensor_object : ShapeArg → Bool
  | ShapeArg.tup _ => false
  | ShapeArg.tens _ => true

/-- The integer entries of a shape argument. -/
def ShapeArg.entries : ShapeArg → List Int
  | ShapeArg.tup l => l
  | ShapeArg.tens l => l

/-- Embedding of `concat_shapes(shapes)`: if any argument is a tensor object, the result
is `tf.concat(shapes, axis=0)` (a tensor whose entries are the concatenated
entries); otherwise it is `sum((tuple(s) for s in shapes), ())`, a plain
tuple built by left-to-right concatenation. -/
def concat_shapes (shapes : List ShapeArg) : ShapeArg :=
  if shapes.any is_tensor_object then
    ShapeArg.tens (shapes.foldr (fun s acc => s.entries ++ acc) [])
  else
    ShapeArg.tup (shapes.foldl (fun acc s => acc ++ s.entries) [])

/-! ## Tensors, flatten and unflatten (shape_utils.py, lines 16-34, 68-159)

A graph-mode tensor is modelled by its runtime dimension list `dims`, a
mask `known` saying which dimensions are statically known, a flag
`ndimsKnown` saying whether the rank is statically known, and its flat
`data`.  TensorFlow guarantees that a statically known dimension equals
the runtime dimension, so the static shape (`int_shape`) is derived from
`dims` and `known`.  `tf.reshape` is modelled by its mathematical
specification: it changes the shape metadata and preserves the data. -/

structure Tensor where
  dims : List Nat
  known : List Bool
  ndimsKnown : Bool
  data : List Int
  deriving DecidableEq, Repr

/-- Embedding of `int_shape(x)` when the rank is statically known: the tuple of
`int or None` static dimensions. -/
def staticShape (x : Tensor) : List (Option Nat) :=
  List.zipWith (fun d k => if k then some d else none) x.dims x.known

/-- The test `None in shape` for a static shape tuple. -/
def noneIn (l : List (Option Nat)) : Bool :=
  l.any (fun o => o.isNone)

/-- A front-shape value as returned by `flatten` and consumed by
`unflatten`: either a plain tuple of ints, or a shape tensor
(`tf.shape(x)` slice) carrying its runtime entries. -/
inductive ShapeVal where
  | tup : List Nat → ShapeVal
  | tens : List Nat → ShapeVal
  deriving DecidableEq, Repr

/-- The runtime entries of a front-shape value. -/
def ShapeVal.vals : ShapeVal → List Nat
  | ShapeVal.tup l => l
  | ShapeVal.tens l => l

/-- The test `isinstance(front_shape, tuple)` after the
`if not is_tensor_object(front_shape): front_shape = tuple(front_shape)`
normalisation step of `unflatten`. -/
def ShapeVal.isTup : ShapeVal → Bool
  | ShapeVal.tup _ => true
  | ShapeVal.tens _ => false

/-- Embedding of `flatten(x, k)` (shape_utils.py lines 68-116): flatten the front
dimensions of `x` so the result has at most `k` dimensions.  Returns the
flattened tensor, the static front shape and the front shape, or
`(x, None, None)` when the rank equals `k`; raises `ValueError` when
`k < 1`, the rank is statically unknown, or the rank is less than `k`. -/
def flatten (x : Tensor) (k : Int) :
    Except String (Tensor × Option (List (Option Nat)) × Option ShapeVal) :=
  if k < 1 then
    Except.error "k must be greater or equal to 1"
  else if x.ndimsKnown = false then
    Except.error "x is required to have known number of dimensions"
  else
    let shape := staticShape x
    if shape.length < k.toNat then
      Except.error "k exceeds the rank of x"
    else if shape.length = k.toNat then
      Except.ok (x, none, none)
    else if k = 1 then
      let fs := if noneIn shape then ShapeVal.tens x.dims else ShapeVal.tup x.dims
      Except.ok ({ dims := [x.data.length],
                   known := [x.known.all id],
                   ndimsKnown := true,
                   data := x.data }, some shape, some fs)
    else
      let m := shape.length - (k.toNat - 1)
      let frontS := shape.take m
      let backS := shape.drop m
      let frontVals := x.dims.take m
      let backVals := x.dims.drop m
      let fs := if noneIn frontS then ShapeVal.tens frontVals else ShapeVal.tup frontVals
      if noneIn backS then
        Except.ok ({ dims := x.data.length / backVals.prod :: backVals,
                     known := false :: backS.map Option.isSome,
                     ndimsKnown := true,
                     data := x.data }, some frontS, some fs)
      else
        Except.ok ({ dims := x.data.length / backVals.prod :: backVals,
                     known := x.known.all id :: backVals.map (fun _ => true),
                     ndimsKnown := true,
                     data := x.data }, some frontS, some fs)

/-- Embedding of `unflatten(x, static_front_shape, front_shape)` (shape_utils.py lines
120-159): the inverse transformation of `flatten`.  Returns `x` unchanged
when both shape arguments are `None`; otherwise reshapes `x` so that its
shape is the front shape followed by `x`'s trailing dimensions. -/
def unflatten (x : Tensor) (sfs : Option (List (Option Nat))) (fs : Option ShapeVal) :
    Except String Tensor :=
  if sfs = none ∧ fs = none then Except.ok x
  else if x.ndimsKnown = false then
    Except.error "x is required to have known number of dimensions"
  else if (staticShape x).length < 1 then
    Except.error "x only has rank 0, required at least 1"
  else
    match fs with
    | none => Except.error "TypeError: front_shape is not iterable"
    | some front =>
      if front.isTup = true ∧ noneIn ((staticShape x).drop 1) = false then
        Except.ok { dims := front.vals ++ x.dims.drop 1,
                    known := (front.vals ++ x.dims.drop 1).map (fun _ => true),
                    ndimsKnown := true,
                    data := x.data }
      else
        match sfs with
        | none => Except.error "TypeError: static_front_shape is not iterable"
        | some sfl =>
          Except.ok { dims := front.vals ++ x.dims.drop 1,
                      known := sfl.map Option.isSome ++
                        ((staticShape x).drop 1).map Option.isSome,
                      ndimsKnown := true,
                      data := x.data }

/-! ## BaseTrainer: hook registration (base_trainer.py, lines 13-17, 194-356) -/

/-- Modelled from the spec: `HookPriority` is defined in
`tfsnippet/trainer/hooks.py`, which is not among the given sources; the
spec fixes a small set of distinct priority values (LOGGING, EVALUATION,
ANNEALING). -/
inductive HookPriority where
  | LOGGING
  | EVALUATION
  | ANNEALING
  deriving DecidableEq, Repr

/-- A registered hook: a zero-argument callback, a firing frequency and a
priority. -/
structure Hook (C : Type) where
  callback : C
  freq : Nat
  priority : HookPriority

/-- Modelled from the spec: `HookList` is defined in
`tfsnippet/trainer/hooks.py`, which is not among the given sources.  It is
an ordered collection of hooks plus a trigger counter; `add_hook`
registers a new independent entry (execution ordering by priority is a
concern of `call_hooks`, not of registration). -/
structure HookList (C : Type) where
  hooks : List (Hook C)
  counter : Nat

/-- Modelled from the spec: `HookList.add_hook(callback, freq, priority)`
registers a callback; duplicate registrations are independent entries. -/
def HookList.add_hook (hl : HookList C) (callback : C) (freq : Nat)
    (priority : HookPriority) : HookList C :=
  { hl with hooks := hl.hooks ++ [⟨callback, freq, priority⟩] }

/-- The registration-relevant state of a `BaseTrainer`: its four hook
lists and the `loop.print_logs` bound method used by the logging hooks. -/
structure Trainer (C : Type) where
  before_epochs : HookList C
  before_steps : HookList C
  after_steps : HookList C
  after_epochs : HookList C
  loop_print_logs : C

/-- Embedding of `check_epochs_and_steps_arg(epochs, steps)` (base_trainer.py lines
13-17): raises `ValueError` unless exactly one of the two arguments is
specified. -/
def check_epochs_and_steps_arg (epochs steps : Option Nat) : Except String Unit :=
  if (epochs.isSome && steps.isSome) || (epochs.isNone && steps.isNone) then
    Except.error "One and only one of epochs and steps should be specified."
  else
    Except.ok ()

/-- Embedding of `BaseTrainer.log_after_steps(freq)`. -/
def Trainer.log_after_steps (t : Trainer C) (freq : Nat) : Trainer C :=
  { t with after_steps :=
      t.after_steps.add_hook t.loop_print_logs freq HookPriority.LOGGING }

/-- Embedding of `BaseTrainer.log_after_epochs(freq)`. -/
def Trainer.log_after_epochs (t : Trainer C) (freq : Nat) : Trainer C :=
  { t with after_epochs :=
      t.after_epochs.add_hook t.loop_print_logs freq HookPriority.LOGGING }

/-- Embedding of `BaseTrainer.log_after(epochs=..., steps=...)`. -/
def Trainer.log_after (t : Trainer C) (epochs steps : Option Nat) :
    Except String (Trainer C) :=
  match check_epochs_and_steps_arg epochs steps with
  | Except.error e => Except.error e
  | Except.ok _ =>
    match epochs with
    | some e => Except.ok (t.log_after_epochs e)
    | none => Except.ok (t.log_after_steps (steps.getD 0))

/-- Modelled from the spec: an evaluator collaborator passed to
`evaluate_after_*` (the `Evaluator` class of
`tfsnippet/trainer/evaluator.py` is not among the given sources) is
either itself callable or exposes a zero-argument `run()` method. -/
structure EvalArg (C : Type) where
  isCallable : Bool
  obj : C
  runMethod : C

/-- Embedding of `BaseTrainer.evaluate_after_steps(evaluator, freq)` (lines 241-252):
the registered callback is `evaluator if callable(evaluator) else
evaluator.run`. -/
def Trainer.evaluate_after_steps (t : Trainer C) (ev : EvalArg C) (freq : Nat) :
    Trainer C :=
  let cb := if ev.isCallable then ev.obj else ev.runMethod
  { t with after_steps := t.after_steps.add_hook cb freq HookPriority.EVALUATION }

/-- Embedding of `BaseTrainer.evaluate_after_epochs(evaluator, freq)` (lines 254-265). -/
def Trainer.evaluate_after_epochs (t : Trainer C) (ev : EvalArg C) (freq : Nat) :
    Trainer C :=
  let cb := if ev.isCallable then ev.obj else ev.runMethod
  { t with after_epochs := t.after_epochs.add_hook cb freq HookPriority.EVALUATION }

/-- Embedding of `BaseTrainer.evaluate_after(evaluator, epochs=..., steps=...)`. -/
def Trainer.evaluate_after (t : Trainer C) (ev : EvalArg C) (epochs steps : Option Nat) :
    Except String (Trainer C) :=
  match check_epochs_and_steps_arg epochs steps with
  | Except.error e => Except.error e
  | Except.ok _ =>
    match epochs with
    | some e => Except.ok (t.evaluate_after_epochs ev e)
    | none => Except.ok (t.evaluate_after_steps ev (steps.getD 0))

/-- Modelled from the spec: an annealing collaborator passed to
`anneal_after_*` (the `AnnealingDynamicValue` class of
`tfsnippet/trainer/dynamic_values.py` is not among the given sources) is
either itself callable or exposes a zero-argument `anneal()` method. -/
structure AnnealArg (C : Type) where
  isCallable : Bool
  obj : C
  annealMethod : C

/-- Embedding of `BaseTrainer.anneal_after_steps(value, freq)` (lines 302-313): the
registered callback is `value if callable(value) else value.anneal`. -/
def Trainer.anneal_after_steps (t : Trainer C) (av : AnnealArg C) (freq : Nat) :
    Trainer C :=
  let cb := if av.isCallable then av.obj else av.annealMethod
  { t with after_steps := t.after_steps.add_hook cb freq HookPriority.ANNEALING }

/-- Embedding of `BaseTrainer.anneal_after_epochs(value, freq)` (lines 315-326). -/
def Trainer.anneal_after_epochs (t : Trainer C) (av : AnnealArg C) (freq : Nat) :
    Trainer C :=
  let cb := if av.isCallable then av.obj else av.annealMethod
  { t with after_epochs := t.after_epochs.add_hook cb freq HookPriority.ANNEALING }

/-- Embedding of `BaseTrainer.anneal_after(value, epochs=..., steps=...)`. -/
def Trainer.anneal_after (t : Trainer C) (av : AnnealArg C) (epochs steps : Option Nat) :
    Except String (Trainer C) :=
  match check_epochs_and_steps_arg epochs steps with
  | Except.error e => Except.error e
  | Except.ok _ =>
    match epochs with
    | some e => Except.ok (t.anneal_after_epochs av e)
    | none => Except.ok (t.anneal_after_steps av (steps.getD 0))

/-! ## BaseTrainer.run() (base_trainer.py, lines 67-100)

`run()` is embedded as a trace-producing interpreter.  Its collaborators
are oracles: whether the session/initialization precondition holds, the
epochs yielded by `loop.iter_epochs()`, the payloads yielded by
`_iter_steps()` within each epoch, and whether a given hook invocation,
`_iter_steps()` call or `_run_step()` call raises.  A hook call that
raises is still recorded in the trace (the invocation happened before the
error propagated).  The `finally` block of `run()` maps to the final
is-fitting flag being `false` on every path that entered the `try`; the
re-entrancy error is raised before the flag is set, so that path leaves
the flag `true` (its prior value). -/

/-- Identifier of one of the trainer's four hook lists, in the order of
`BaseTrainer.hook_lists`. -/
inductive ListId where
  | beforeEpochs
  | beforeSteps
  | afterSteps
  | afterEpochs
  deriving DecidableEq, Repr

/-- An observable action of `BaseTrainer.run()`: resetting a hook list's
trigger counter, invoking a hook list, or running one training step. -/
inductive RunEvent (E P : Type) where
  | reset : ListId → RunEvent E P
  | callHooks : ListId → RunEvent E P
  | runStep : P → RunEvent E P
  deriving DecidableEq, Repr

/-- The error classes that can escape `run()`. -/
inductive RunError where
  | reentrant
  | precondition
  | propagated
  deriving DecidableEq, Repr

/-- Modelled from the spec: the collaborators of a run
(`TrainLoop.iter_epochs`, `HookList.call_hooks`, and the abstract
`_iter_steps` / `_run_step`, none of which are among the given sources)
as yield/raise oracles. -/
structure RunEnv (E P : Type) where
  sessionOk : Bool
  epochs : List E
  iterSteps : E → List P
  iterStepsFail : E → Bool
  beforeEpochFail : E → Bool
  beforeStepFail : E → P → Bool
  runStepFail : E → P → Bool
  afterStepFail : E → P → Bool
  afterEpochFail : E → Bool

/-- The step loop of `run()` for one epoch (lines 87-95): before-step
hooks, `_run_step`, after-step hooks, aborting at the first raise.
Returns the emitted events and whether the loop completed. -/
def runStepLoop (env : RunEnv E P) (e : E) : List P → List (RunEvent E P) × Bool
  | [] => ([], true)
  | p :: rest =>
    if env.beforeStepFail e p then
      ([RunEvent.callHooks ListId.beforeSteps], false)
    else if env.runStepFail e p then
      ([RunEvent.callHooks ListId.beforeSteps, RunEvent.runStep p], false)
    else if env.afterStepFail e p then
      ([RunEvent.callHooks ListId.beforeSteps, RunEvent.runStep p,
        RunEvent.callHooks ListId.afterSteps], false)
    else
      let r := runStepLoop env e rest
      (RunEvent.callHooks ListId.beforeSteps :: RunEvent.runStep p ::
        RunEvent.callHooks ListId.afterSteps :: r.1, r.2)

/-- The epoch loop of `run()` (lines 82-98): before-epoch hooks, the step
loop, after-epoch hooks, aborting at the first raise. -/
def runEpochLoop (env : RunEnv E P) : List E → List (RunEvent E P) × Bool
  | [] => ([], true)
  | e :: rest =>
    if env.beforeEpochFail e then
      ([RunEvent.callHooks ListId.beforeEpochs], false)
    else if env.iterStepsFail e then
      ([RunEvent.callHooks ListId.beforeEpochs], false)
    else
      let s := runStepLoop env e (env.iterSteps e)
      if s.2 then
        if env.afterEpochFail e then
          (RunEvent.callHooks ListId.beforeEpochs :: s.1 ++
            [RunEvent.callHooks ListId.afterEpochs], false)
        else
          let r := runEpochLoop env rest
          (RunEvent.callHooks ListId.beforeEpochs :: s.1 ++
            RunEvent.callHooks ListId.afterEpochs :: r.1, r.2)
      else
        (RunEvent.callHooks ListId.beforeEpochs :: s.1, false)

/-- The four counter resets of lines 79-80, in the order of
`BaseTrainer.hook_lists`. -/
def resetEvents (E P : Type) : List (RunEvent E P) :=
  [RunEvent.reset ListId.beforeEpochs, RunEvent.reset ListId.beforeSteps,
   RunEvent.reset ListId.afterSteps, RunEvent.reset ListId.afterEpochs]

/-- The outcome of a call of `run()`: the is-fitting flag after the call,
the error that escaped (if any), and the emitted events. -/
structure RunResult (E P : Type) where
  isFitting : Bool
  err : Option RunError
  events : List (RunEvent E P)
  deriving DecidableEq, Repr

/-- Embedding of `BaseTrainer.run()` (lines 67-100), entered with the is-fitting flag
equal to `isFitting`: raise the re-entrancy error if already fitting
(leaving the flag untouched); otherwise set the flag, check the
session/initialization precondition, reset the four hook lists and run
the epoch loop, and in all cases clear the flag via `finally` before
returning or re-raising. -/
def runTrainer (isFitting : Bool) (env : RunEnv E P) : RunResult E P :=
  if isFitting then
    ⟨true, some RunError.reentrant, []⟩
  else if env.sessionOk = false then
    ⟨false, some RunError.precondition, []⟩
  else
    let r := runEpochLoop env env.epochs
    ⟨false, if r.2 then none else some RunError.propagated, resetEvents E P ++ r.1⟩

/-- The full intended trace of a successful run: for each epoch, the
before-epoch hooks, then per payload the before-step hooks, the step and
the after-step hooks, then the after-epoch hooks. -/
def successTrace (env : RunEnv E P) : List (RunEvent E P) :=
  env.epochs.flatMap (fun e =>
    RunEvent.callHooks ListId.beforeEpochs ::
      (env.iterSteps e).flatMap (fun p =>
        [RunEvent.callHooks ListId.beforeSteps, RunEvent.runStep p,
         RunEvent.callHooks ListId.afterSteps]) ++
      [RunEvent.callHooks ListId.afterEpochs])

/-- No collaborator raises during the run. -/
def noFailures (env : RunEnv E P) : Prop :=
  ∀ e ∈ env.epochs,
    env.beforeEpochFail e = false ∧ env.iterStepsFail e = false ∧
    env.afterEpochFail e = false ∧
    ∀ p ∈ env.iterSteps e,
      env.beforeStepFail e p = false ∧ env.runStepFail e p = false ∧
      env.afterStepFail e p = false

instance (env : RunEnv E P) [DecidableEq E] [DecidableEq P] :
    Decidable (noFailures env) := by
  unfold noFailures; infer_instance

end TFSnippet

namespace TFSnippet

/-! ## Theorems for resolve_negative_axis and concat_shapes -/

theorem resolve_negative_axis_ok_iff (ndims : Int) (axis : List Int) :
    resolve_negative_axis ndims axis = Except.ok (axis.map (resolveAxisElem ndims)) ↔
      ∀ a ∈ axis, axisInRange ndims a := by
  induction axis with
  | nil => simp [resolve_negative_axis]
  | cons a rest ih =>
    simp only [resolve_negative_axis, List.map_cons, List.mem_cons]
    by_cases h : resolveAxisElem ndims a < 0 ∨ resolveAxisElem ndims a ≥ ndims
    · simp only [if_pos h]
      constructor
      · intro hc; cases hc
      · intro hall
        exact absurd h (by
          have := hall a (Or.inl rfl)
          push_neg
          exact ⟨this.1, this.2⟩)
    · simp only [if_neg h]
      push_neg at h
      constructor
      · intro hc
        intro b hb
        rcases hb with hb | hb
        · subst hb; exact ⟨h.1, h.2⟩
        · cases hrest : resolve_negative_axis ndims rest with
          | ok l =>
            rw [hrest] at hc
            injection hc with hc'
            injection hc' with hc1 hc2
            exact (ih.mp (hc2 ▸ hrest)) b hb
          | error e => rw [hrest] at hc; cases hc
      · intro hall
        have : resolve_negative_axis ndims rest = Except.ok (rest.map (resolveAxisElem ndims)) :=
          ih.mpr (fun b hb => hall b (Or.inr hb))
        rw [this]

theorem resolve_negative_axis_error_iff (ndims : Int) (axis : List Int) :
    (∃ e, resolve_negative_axis ndims axis = Except.error e) ↔
      ∃ a ∈ axis, ¬ axisInRange ndims a := by
  induction axis with
  | nil => simp [resolve_negative_axis]
  | cons a rest ih =>
    simp only [resolve_negative_axis, List.mem_cons]
    by_cases h : resolveAxisElem ndims a < 0 ∨ resolveAxisElem ndims a ≥ ndims
    · simp only [if_pos h]
      constructor
      · intro _
        refine ⟨a, Or.inl rfl, ?_⟩
        intro ⟨h1, h2⟩
        rcases h with h | h
        · omega
        · omega
      · intro _; exact ⟨"axis out of range", rfl⟩
    · simp only [if_neg h]
      push_neg at h
      cases hrest : resolve_negative_axis ndims rest with
      | ok l =>
        constructor
        · intro ⟨e, he⟩; cases he
        · intro ⟨b, hb, hnb⟩
          rcases hb with hb | hb
          · subst hb; exact absurd ⟨h.1, h.2⟩ hnb
          · obtain ⟨e, he⟩ := ih.mpr ⟨b, hb, hnb⟩
            rw [hrest] at he; cases he
      | error e =>
        constructor
        · intro _
          obtain ⟨b, hb, hnb⟩ := ih.mp ⟨e, hrest⟩
          exact ⟨b, Or.inr hb, hnb⟩
        · intro _; exact ⟨e, rfl⟩

theorem resolve_negative_axis_mem_range (ndims : Int) (axis : List Int)
    (l : List Int) (h : resolve_negative_axis ndims axis = Except.ok l) :
    ∀ x ∈ l, 0 ≤ x ∧ x < ndims := by
  induction axis generalizing l with
  | nil =>
    simp only [resolve_negative_axis] at h
    injection h with h; subst h; intro x hx; cases hx
  | cons a rest ih =>
    simp only [resolve_negative_axis] at h
    by_cases hc : resolveAxisElem ndims a < 0 ∨ resolveAxisElem ndims a ≥ ndims
    · rw [if_pos hc] at h; cases h
    · rw [if_neg hc] at h
      push_neg at hc
      cases hrest : resolve_negative_axis ndims rest with
      | ok l' =>
        rw [hrest] at h
        injection h with h; subst h
        intro x hx
        rcases List.mem_cons.mp hx with hx | hx
        · subst hx; exact ⟨hc.1, hc.2⟩
        · exact ih l' hrest x hx
      | error e => rw [hrest] at h; cases h

theorem concat_shapes_foldl (shapes : List ShapeArg) (init : List Int) :
    shapes.foldl (fun acc s => acc ++ s.entries) init =
      init ++ (shapes.map ShapeArg.entries).flatten := by
  induction shapes generalizing init with
  | nil => simp
  | cons s rest ih => simp [ih, List.append_assoc]

theorem concat_shapes_all_tuples (shapes : List ShapeArg)
    (h : ∀ s ∈ shapes, is_tensor_object s = false) :
    concat_shapes shapes = ShapeArg.tup ((shapes.map ShapeArg.entries).flatten) := by
  have hany : shapes.any is_tensor_object = false := by
    simp only [List.any_eq_false]
    intro s hs
    rw [h s hs]
    simp
  unfold concat_shapes
  rw [hany]
  simp [concat_shapes_foldl]

/-- C9: `resolve_negative_axis(ndims, axis)` returns the list obtained by
replacing each element `a < 0` with `a + ndims` (order and length
preserved), raises `ValueError` exactly when some resolved element lies
outside `[0, ndims)`, and every element of a successfully returned list
lies in `[0, ndims)`. -/
theorem resolve_negative_axis_spec (ndims : Int) (axis : List Int) :
    (resolve_negative_axis ndims axis = Except.ok (axis.map (resolveAxisElem ndims)) ↔
      ∀ a ∈ axis, axisInRange ndims a) ∧
    ((∃ e, resolve_negative_axis ndims axis = Except.error e) ↔
      ∃ a ∈ axis, ¬ axisInRange ndims a) ∧
    (∀ l, resolve_negative_axis ndims axis = Except.ok l → ∀ x ∈ l, 0 ≤ x ∧ x < ndims) :=
  ⟨resolve_negative_axis_ok_iff ndims axis,
   resolve_negative_axis_error_iff ndims axis,
   resolve_negative_axis_mem_range ndims axis⟩

/-- Witness for C9: the docstring example `resolve_negative_axis(4, [0, -1, -2])`
evaluates to `(0, 3, 2)`. -/
theorem resolve_negative_axis_spec_witness :
    resolve_negative_axis 4 [0, -1, -2] = Except.ok [0, 3, 2] :=
  (resolve_negative_axis_spec 4 [0, -1, -2]).1.mpr (by decide)

/-- C10: on sequences of plain tuples (no tensor objects), `concat_shapes`
is a monoid homomorphism from lists of shape tuples to shape tuples:
the empty sequence maps to the empty tuple, and concatenation of
sequences maps to concatenation of the resulting tuples. -/
theorem concat_shapes_monoid_hom (ss1 ss2 : List ShapeArg)
    (h1 : ∀ s ∈ ss1, is_tensor_object s = false)
    (h2 : ∀ s ∈ ss2, is_tensor_object s = false) :
    concat_shapes [] = ShapeArg.tup [] ∧
    concat_shapes (ss1 ++ ss2) =
      ShapeArg.tup ((concat_shapes ss1).entries ++ (concat_shapes ss2).entries) := by
  refine ⟨by simp [concat_shapes, is_tensor_object], ?_⟩
  have h12 : ∀ s ∈ ss1 ++ ss2, is_tensor_object s = false := by
    intro s hs
    rcases List.mem_append.mp hs with hs | hs
    · exact h1 s hs
    · exact h2 s hs
  rw [concat_shapes_all_tuples _ h12, concat_shapes_all_tuples _ h1,
      concat_shapes_all_tuples _ h2]
  simp [ShapeArg.entries]

theorem staticShape_length (x : Tensor) (hwf : x.known.length = x.dims.length) :
    (staticShape x).length = x.dims.length := by
  simp [staticShape, hwf]

/-- C8: `flatten(x, k)` raises `ValueError` exactly when `k < 1`, or the
rank of `x` is statically unknown, or the statically known rank is
strictly less than `k`; under the complementary precondition it never
raises, and when the rank equals `k` it returns `(x, None, None)`. -/
theorem flatten_error_spec (x : Tensor) (k : Int)
    (hwf : x.known.length = x.dims.length) :
    ((∃ e, flatten x k = Except.error e) ↔
      (k < 1 ∨ x.ndimsKnown = false ∨ (x.dims.length : Int) < k)) ∧
    (x.ndimsKnown = true → 1 ≤ k → (x.dims.length : Int) = k →
      flatten x k = Except.ok (x, none, none)) := by
  have hlen : (staticShape x).length = x.dims.length := staticShape_length x hwf
  constructor
  · constructor
    · intro ⟨e, he⟩
      by_cases h1 : k < 1
      · exact Or.inl h1
      by_cases h2 : x.ndimsKnown = false
      · exact Or.inr (Or.inl h2)
      by_cases h3 : (x.dims.length : Int) < k
      · exact Or.inr (Or.inr h3)
      exfalso
      simp only [flatten, if_neg h1, if_neg h2, hlen] at he
      have h3' : ¬ x.dims.length < k.toNat := by omega
      rw [if_neg h3'] at he
      by_cases h4 : x.dims.length = k.toNat
      · rw [if_pos h4] at he; cases he
      · rw [if_neg h4] at he
        by_cases h5 : k = 1
        · rw [if_pos h5] at he; cases he
        · rw [if_neg h5] at he
          split at he <;> cases he
    · intro h
      by_cases h1 : k < 1
      · exact ⟨"k must be greater or equal to 1", by simp only [flatten, if_pos h1]⟩
      · by_cases h2 : x.ndimsKnown = false
        · exact ⟨"x is required to have known number of dimensions",
            by simp only [flatten, if_neg h1, if_pos h2]⟩
        · have h3 : (x.dims.length : Int) < k := by tauto
          have h3' : (staticShape x).length < k.toNat := by omega
          exact ⟨"k exceeds the rank of x",
            by simp only [flatten, if_neg h1, if_neg h2, if_pos h3']⟩
  · intro hnd hk1 hkr
    have h1 : ¬ k < 1 := by omega
    have h2 : ¬ x.ndimsKnown = false := by simp [hnd]
    simp only [flatten, if_neg h1, if_neg h2, hlen]
    have h3' : ¬ x.dims.length < k.toNat := by omega
    have h4' : x.dims.length = k.toNat := by omega
    rw [if_neg h3', if_pos h4']

/-- Witness for C8: a rank-2 tensor with `k = 0` raises, and with `k = 2`
returns `(x, None, None)`. -/
theorem flatten_error_spec_witness :
    (∃ e, flatten ⟨[2, 3], [true, true], true, [0, 1, 2, 3, 4, 5]⟩ 0 = Except.error e) ∧
    flatten ⟨[2, 3], [true, true], true, [0, 1, 2, 3, 4, 5]⟩ 2 =
      Except.ok (⟨[2, 3], [true, true], true, [0, 1, 2, 3, 4, 5]⟩, none, none) :=
  ⟨((flatten_error_spec ⟨[2, 3], [true, true], true, [0, 1, 2, 3, 4, 5]⟩ 0
      (by decide)).1).mpr (Or.inl (by decide)),
   (flatten_error_spec ⟨[2, 3], [true, true], true, [0, 1, 2, 3, 4, 5]⟩ 2
      (by decide)).2 rfl (by decide) (by decide)⟩

/-- Witness for C10: concatenating `[(2, 3)]` and `[(4,), (5, 6)]`. -/
theorem concat_shapes_monoid_hom_witness :
    concat_shapes [] = ShapeArg.tup [] ∧
    concat_shapes ([ShapeArg.tup [2, 3]] ++ [ShapeArg.tup [4], ShapeArg.tup [5, 6]]) =
      ShapeArg.tup ((concat_shapes [ShapeArg.tup [2, 3]]).entries ++
        (concat_shapes [ShapeArg.tup [4], ShapeArg.tup [5, 6]]).entries) :=
  concat_shapes_monoid_hom [ShapeArg.tup [2, 3]] [ShapeArg.tup [4], ShapeArg.tup [5, 6]]
    (by decide) (by decide)

theorem unflatten_some_eval (y : Tensor) (sfl : List (Option Nat)) (front : ShapeVal)
    (h1 : y.ndimsKnown = true) (hwfy : y.known.length = y.dims.length)
    (h2 : 1 ≤ y.dims.length) :
    ∃ z, unflatten y (some sfl) (some front) = Except.ok z ∧
      z.dims = front.vals ++ y.dims.drop 1 ∧ z.data = y.data := by
  have hnone : ¬ ((some sfl : Option (List (Option Nat))) = none ∧
      (some front : Option ShapeVal) = none) := by simp
  have hnf : ¬ y.ndimsKnown = false := by simp [h1]
  have hlt : ¬ (staticShape y).length < 1 := by
    rw [staticShape_length y hwfy]; omega
  by_cases hc : front.isTup = true ∧ noneIn ((staticShape y).drop 1) = false
  · exact ⟨⟨front.vals ++ y.dims.drop 1,
      (front.vals ++ y.dims.drop 1).map (fun _ => true), true, y.data⟩,
      by simp only [unflatten, if_neg hnone, if_neg hnf, if_neg hlt, if_pos hc],
      rfl, rfl⟩
  · exact ⟨⟨front.vals ++ y.dims.drop 1,
      sfl.map Option.isSome ++ ((staticShape y).drop 1).map Option.isSome, true, y.data⟩,
      by simp only [unflatten, if_neg hnone, if_neg hnf, if_neg hlt, if_neg hc],
      rfl, rfl⟩

theorem shapeVal_ite_vals (c : Bool) (l : List Nat) :
    (if c = true then ShapeVal.tens l else ShapeVal.tup l).vals = l := by
  split <;> rfl

/-- C5: `flatten` and `unflatten` form a round trip: for every tensor `x`
with statically known rank `r` and every `k` with `1 ≤ k ≤ r`, flattening
and then unflattening yields a tensor with the same shape and contents as
`x`; in the degenerate case `r = k`, `flatten` returns `(x, None, None)`
and `unflatten` returns its input unchanged. -/
theorem flatten_unflatten_round_trip (x : Tensor) (k : Int)
    (hwf : x.known.length = x.dims.length) (hnd : x.ndimsKnown = true)
    (hk1 : 1 ≤ k) (hkr : k ≤ (x.dims.length : Int)) :
    (∃ y sfs fs z, flatten x k = Except.ok (y, sfs, fs) ∧
        unflatten y sfs fs = Except.ok z ∧ z.dims = x.dims ∧ z.data = x.data) ∧
    ((x.dims.length : Int) = k →
      flatten x k = Except.ok (x, none, none) ∧
      unflatten x none none = Except.ok x) := by
  have hlen := staticShape_length x hwf
  have h1 : ¬ k < 1 := by omega
  have h2 : ¬ x.ndimsKnown = false := by simp [hnd]
  have h3' : ¬ x.dims.length < k.toNat := by omega
  constructor
  · by_cases h4 : x.dims.length = k.toNat
    · refine ⟨x, none, none, x, ?_, by simp [unflatten], rfl, rfl⟩
      simp only [flatten, if_neg h1, if_neg h2, hlen]
      rw [if_neg h3', if_pos h4]
    · by_cases h5 : k = 1
      · subst h5
        have hflat : flatten x 1 = Except.ok
            (⟨[x.data.length], [x.known.all id], true, x.data⟩,
             some (staticShape x),
             some (if noneIn (staticShape x) = true then ShapeVal.tens x.dims
                   else ShapeVal.tup x.dims)) := by
          simp only [flatten, if_neg h1, if_neg h2, hlen]
          rw [if_neg h3', if_neg h4, if_pos trivial]
        obtain ⟨z, hz, hzd, hzdata⟩ := unflatten_some_eval
          ⟨[x.data.length], [x.known.all id], true, x.data⟩ (staticShape x)
          (if noneIn (staticShape x) = true then ShapeVal.tens x.dims
           else ShapeVal.tup x.dims) rfl (by simp) (by simp)
        refine ⟨_, _, _, z, hflat, hz, ?_, hzdata⟩
        rw [hzd, shapeVal_ite_vals]
        simp
      · by_cases h6 : noneIn ((staticShape x).drop (x.dims.length - (k.toNat - 1))) = true
        · have hflat : flatten x k = Except.ok
              (⟨x.data.length / (x.dims.drop (x.dims.length - (k.toNat - 1))).prod ::
                  x.dims.drop (x.dims.length - (k.toNat - 1)),
                false :: ((staticShape x).drop (x.dims.length - (k.toNat - 1))).map
                  Option.isSome,
                true, x.data⟩,
               some ((staticShape x).take (x.dims.length - (k.toNat - 1))),
               some (if noneIn ((staticShape x).take (x.dims.length - (k.toNat - 1))) = true
                     then ShapeVal.tens (x.dims.take (x.dims.length - (k.toNat - 1)))
                     else ShapeVal.tup (x.dims.take (x.dims.length - (k.toNat - 1))))) := by
            simp only [flatten, if_neg h1, if_neg h2, hlen]
            rw [if_neg h3', if_neg h4, if_neg h5, if_pos h6]
          obtain ⟨z, hz, hzd, hzdata⟩ := unflatten_some_eval
            ⟨x.data.length / (x.dims.drop (x.dims.length - (k.toNat - 1))).prod ::
                x.dims.drop (x.dims.length - (k.toNat - 1)),
              false :: ((staticShape x).drop (x.dims.length - (k.toNat - 1))).map
                Option.isSome,
              true, x.data⟩
            ((staticShape x).take (x.dims.length - (k.toNat - 1)))
            (if noneIn ((staticShape x).take (x.dims.length - (k.toNat - 1))) = true
             then ShapeVal.tens (x.dims.take (x.dims.length - (k.toNat - 1)))
             else ShapeVal.tup (x.dims.take (x.dims.length - (k.toNat - 1))))
            rfl (by simp [hlen]) (by simp)
          refine ⟨_, _, _, z, hflat, hz, ?_, hzdata⟩
          rw [hzd, shapeVal_ite_vals]
          simp [List.take_append_drop]
        · have hflat : flatten x k = Except.ok
              (⟨x.data.length / (x.dims.drop (x.dims.length - (k.toNat - 1))).prod ::
                  x.dims.drop (x.dims.length - (k.toNat - 1)),
                x.known.all id :: (x.dims.drop (x.dims.length - (k.toNat - 1))).map
                  (fun _ => true),
                true, x.data⟩,
               some ((staticShape x).take (x.dims.length - (k.toNat - 1))),
               some (if noneIn ((staticShape x).take (x.dims.length - (k.toNat - 1))) = true
                     then ShapeVal.tens (x.dims.take (x.dims.length - (k.toNat - 1)))
                     else ShapeVal.tup (x.dims.take (x.dims.length - (k.toNat - 1))))) := by
            simp only [flatten, if_neg h1, if_neg h2, hlen]
            rw [if_neg h3', if_neg h4, if_neg h5, if_neg h6]
          obtain ⟨z, hz, hzd, hzdata⟩ := unflatten_some_eval
            ⟨x.data.length / (x.dims.drop (x.dims.length - (k.toNat - 1))).prod ::
                x.dims.drop (x.dims.length - (k.toNat - 1)),
              x.known.all id :: (x.dims.drop (x.dims.length - (k.toNat - 1))).map
                (fun _ => true),
              true, x.data⟩
            ((staticShape x).take (x.dims.length - (k.toNat - 1)))
            (if noneIn ((staticShape x).take (x.dims.length - (k.toNat - 1))) = true
             then ShapeVal.tens (x.dims.take (x.dims.length - (k.toNat - 1)))
             else ShapeVal.tup (x.dims.take (x.dims.length - (k.toNat - 1))))
            rfl (by simp) (by simp)
          refine ⟨_, _, _, z, hflat, hz, ?_, hzdata⟩
          rw [hzd, shapeVal_ite_vals]
          simp [List.take_append_drop]
  · intro hk
    have h4' : x.dims.length = k.toNat := by omega
    constructor
    · simp only [flatten, if_neg h1, if_neg h2, hlen]
      rw [if_neg h3', if_pos h4']
    · simp [unflatten]

/-- Witness for C5: a fully static rank-2 tensor flattened with `k = 1`
and unflattened back. -/
theorem flatten_unflatten_round_trip_witness :
    ∃ y sfs fs z,
      flatten ⟨[2, 3], [true, true], true, [0, 1, 2, 3, 4, 5]⟩ 1 =
        Except.ok (y, sfs, fs) ∧
      unflatten y sfs fs = Except.ok z ∧
      z.dims = [2, 3] ∧ z.data = [0, 1, 2, 3, 4, 5] :=
  (flatten_unflatten_round_trip ⟨[2, 3], [true, true], true, [0, 1, 2, 3, 4, 5]⟩ 1
    (by decide) rfl (by decide) (by decide)).1

/-! ## Theorems for the trainer -/

theorem runStepLoop_noFail (env : RunEnv E P) (e : E) (ps : List P)
    (h : ∀ p ∈ ps, env.beforeStepFail e p = false ∧ env.runStepFail e p = false ∧
      env.afterStepFail e p = false) :
    runStepLoop env e ps =
      (ps.flatMap (fun p =>
        [RunEvent.callHooks ListId.beforeSteps, RunEvent.runStep p,
         RunEvent.callHooks ListId.afterSteps]), true) := by
  induction ps with
  | nil => simp [runStepLoop]
  | cons p rest ih =>
    obtain ⟨h1, h2, h3⟩ := h p (List.mem_cons_self p rest)
    rw [runStepLoop, if_neg (by simp [h1]), if_neg (by simp [h2]), if_neg (by simp [h3])]
    rw [ih (fun q hq => h q (List.mem_cons_of_mem p hq))]
    simp

theorem runEpochLoop_noFail (env : RunEnv E P) (es : List E)
    (h : ∀ e ∈ es,
      env.beforeEpochFail e = false ∧ env.iterStepsFail e = false ∧
      env.afterEpochFail e = false ∧
      ∀ p ∈ env.iterSteps e,
        env.beforeStepFail e p = false ∧ env.runStepFail e p = false ∧
        env.afterStepFail e p = false) :
    runEpochLoop env es =
      (es.flatMap (fun e =>
        RunEvent.callHooks ListId.beforeEpochs ::
          (env.iterSteps e).flatMap (fun p =>
            [RunEvent.callHooks ListId.beforeSteps, RunEvent.runStep p,
             RunEvent.callHooks ListId.afterSteps]) ++
          [RunEvent.callHooks ListId.afterEpochs]), true) := by
  induction es with
  | nil => simp [runEpochLoop]
  | cons e rest ih =>
    obtain ⟨h1, h2, h3, h4⟩ := h e (List.mem_cons_self e rest)
    rw [runEpochLoop, if_neg (by simp [h1]), if_neg (by simp [h2])]
    rw [runStepLoop_noFail env e (env.iterSteps e) h4]
    simp only []
    rw [if_pos trivial, if_neg (by simp [h3])]
    rw [ih (fun f hf => h f (List.mem_cons_of_mem e hf))]
    simp

/-- C1: a successful call of `BaseTrainer.run()` (the re-entrancy guard
does not fire, the session/initialization precondition holds, and no
collaborator raises) first resets the trigger counters of the four hook
lists and then emits exactly: per epoch, the before-epoch hooks, then per
payload of `_iter_steps()` the before-step hooks, `_run_step`, and the
after-step hooks, and after the step loop the after-epoch hooks. -/
theorem run_success_trace (env : RunEnv E P)
    (hs : env.sessionOk = true) (hnf : noFailures env) :
    runTrainer false env = ⟨false, none, resetEvents E P ++ successTrace env⟩ := by
  have hloop := runEpochLoop_noFail env env.epochs hnf
  simp only [runTrainer, if_neg (Bool.false_ne_true), hs]
  rw [if_neg (by simp)]
  rw [hloop]
  simp [successTrace]

/-- Witness for C1: two epochs of one step each, nothing raising. -/
theorem run_success_trace_witness :
    runTrainer false (⟨true, [0, 1], fun _ => [7], fun _ => false, fun _ => false,
        fun _ _ => false, fun _ _ => false, fun _ _ => false,
        fun _ => false⟩ : RunEnv Nat Nat) =
      ⟨false, none,
       [RunEvent.reset ListId.beforeEpochs, RunEvent.reset ListId.beforeSteps,
        RunEvent.reset ListId.afterSteps, RunEvent.reset ListId.afterEpochs,
        RunEvent.callHooks ListId.beforeEpochs, RunEvent.callHooks ListId.beforeSteps,
        RunEvent.runStep 7, RunEvent.callHooks ListId.afterSteps,
        RunEvent.callHooks ListId.afterEpochs,
        RunEvent.callHooks ListId.beforeEpochs, RunEvent.callHooks ListId.beforeSteps,
        RunEvent.runStep 7, RunEvent.callHooks ListId.afterSteps,
        RunEvent.callHooks ListId.afterEpochs]⟩ := by
  have h := run_success_trace (⟨true, [0, 1], fun _ => [7], fun _ => false,
    fun _ => false, fun _ _ => false, fun _ _ => false, fun _ _ => false,
    fun _ => false⟩ : RunEnv Nat Nat) rfl (by decide)
  simpa [resetEvents, successTrace] using h

theorem runTrainer_false_isFitting (env : RunEnv E P) :
    (runTrainer false env).isFitting = false := by
  by_cases h : env.sessionOk = false <;> simp [runTrainer, h]

/-- C2: every call of `run()` that passes the re-entrancy guard leaves the
is-fitting flag `false`, whether the body completes normally or any error
(precondition check, hook, `_iter_steps`, `_run_step`) is raised: the
`finally` block restores the flag before the error reaches the caller. -/
theorem run_restores_idle (env : RunEnv E P) :
    (runTrainer false env).isFitting = false :=
  runTrainer_false_isFitting env

/-- C3: `run()` raises the re-entrancy error iff the trainer is already
running at entry; an inner `run()` issued while the flag is set (e.g.
from a hook during an outer run) raises that error and leaves the flag
set, and the outer `run()` still ends with the flag cleared. -/
theorem run_reentrancy (b : Bool) (env env' : RunEnv E P) :
    ((runTrainer b env).err = some RunError.reentrant ↔ b = true) ∧
    (runTrainer true env').err = some RunError.reentrant ∧
    (runTrainer true env').isFitting = true ∧
    (runTrainer false env).isFitting = false := by
  refine ⟨?_, rfl, rfl, runTrainer_false_isFitting env⟩
  cases b with
  | true => simp [runTrainer]
  | false =>
    constructor
    · intro h
      exfalso
      by_cases hs : env.sessionOk = false
      · simp [runTrainer, hs] at h
      · simp only [runTrainer, if_neg (Bool.false_ne_true), if_neg hs] at h
        split at h <;> simp at h
    · intro h; cases h

/-- C4: each cadence-based registration call (`log_after`,
`evaluate_after`, `anneal_after`) raises `ValueError` iff both of
`epochs` and `steps` are specified or neither is; every such error is the
one raised by `check_epochs_and_steps_arg` before any hook is added. -/
theorem cadence_check_errors (t : Trainer C) (ev : EvalArg C) (av : AnnealArg C)
    (epochs steps : Option Nat) :
    ((∃ e, t.log_after epochs steps = Except.error e) ↔
      ((epochs.isSome && steps.isSome) || (epochs.isNone && steps.isNone)) = true) ∧
    ((∃ e, t.evaluate_after ev epochs steps = Except.error e) ↔
      ((epochs.isSome && steps.isSome) || (epochs.isNone && steps.isNone)) = true) ∧
    ((∃ e, t.anneal_after av epochs steps = Except.error e) ↔
      ((epochs.isSome && steps.isSome) || (epochs.isNone && steps.isNone)) = true) ∧
    (∀ e, t.log_after epochs steps = Except.error e →
      check_epochs_and_steps_arg epochs steps = Except.error e) ∧
    (∀ e, t.evaluate_after ev epochs steps = Except.error e →
      check_epochs_and_steps_arg epochs steps = Except.error e) ∧
    (∀ e, t.anneal_after av epochs steps = Except.error e →
      check_epochs_and_steps_arg epochs steps = Except.error e) := by
  by_cases hc : ((epochs.isSome && steps.isSome) || (epochs.isNone && steps.isNone)) = true
  · refine ⟨?_, ?_, ?_, ?_, ?_, ?_⟩ <;>
      simp [Trainer.log_after, Trainer.evaluate_after, Trainer.anneal_after,
        check_epochs_and_steps_arg, hc]
  · refine ⟨?_, ?_, ?_, ?_, ?_, ?_⟩ <;>
      cases epochs <;>
      simp_all [Trainer.log_after, Trainer.evaluate_after, Trainer.anneal_after,
        check_epochs_and_steps_arg]

/-- Witness for C4: specifying both cadences raises. -/
theorem cadence_check_errors_witness :
    ∃ e, Trainer.log_after (C := Unit) ⟨⟨[], 0⟩, ⟨[], 0⟩, ⟨[], 0⟩, ⟨[], 0⟩, ()⟩
      (some 5) (some 10) = Except.error e :=
  (cadence_check_errors ⟨⟨[], 0⟩, ⟨[], 0⟩, ⟨[], 0⟩, ⟨[], 0⟩, ()⟩
    ⟨true, (), ()⟩ ⟨true, (), ()⟩ (some 5) (some 10)).1.mpr rfl

/-- C6: each cadence-based registration method is exactly the
corresponding fixed-cadence registration: `log_after(epochs=e)` equals
`log_after_epochs(e)` (which adds `loop.print_logs` to the after-epochs
list at frequency `e` with LOGGING priority), `log_after(steps=s)` equals
`log_after_steps(s)` (after-steps list), and `evaluate_after` /
`anneal_after` dispatch to their `_after_epochs` / `_after_steps`
variants with EVALUATION / ANNEALING priority. -/
theorem cadence_dispatch (t : Trainer C) (ev : EvalArg C) (av : AnnealArg C)
    (e s : Nat) :
    t.log_after (some e) none = Except.ok (t.log_after_epochs e) ∧
    t.log_after none (some s) = Except.ok (t.log_after_steps s) ∧
    (t.log_after_epochs e).after_epochs =
      t.after_epochs.add_hook t.loop_print_logs e HookPriority.LOGGING ∧
    (t.log_after_steps s).after_steps =
      t.after_steps.add_hook t.loop_print_logs s HookPriority.LOGGING ∧
    t.evaluate_after ev (some e) none = Except.ok (t.evaluate_after_epochs ev e) ∧
    t.evaluate_after ev none (some s) = Except.ok (t.evaluate_after_steps ev s) ∧
    t.anneal_after av (some e) none = Except.ok (t.anneal_after_epochs av e) ∧
    t.anneal_after av none (some s) = Except.ok (t.anneal_after_steps av s) :=
  ⟨rfl, rfl, rfl, rfl, rfl, rfl, rfl, rfl⟩

/-- C7: the callback registered by `evaluate_after_steps` /
`evaluate_after_epochs` is the evaluator itself when it is callable and
its `run` attribute otherwise; `anneal_after_steps` /
`anneal_after_epochs` dispatch likewise on the `anneal` attribute. -/
theorem evaluator_callback_dispatch (t : Trainer C) (ev : EvalArg C)
    (av : AnnealArg C) (freq : Nat) :
    (t.evaluate_after_steps ev freq).after_steps.hooks =
      t.after_steps.hooks ++
        [Hook.mk (if ev.isCallable then ev.obj else ev.runMethod) freq
          HookPriority.EVALUATION] ∧
    (t.evaluate_after_epochs ev freq).after_epochs.hooks =
      t.after_epochs.hooks ++
        [Hook.mk (if ev.isCallable then ev.obj else ev.runMethod) freq
          HookPriority.EVALUATION] ∧
    (t.anneal_after_steps av freq).after_steps.hooks =
      t.after_steps.hooks ++
        [Hook.mk (if av.isCallable then av.obj else av.annealMethod) freq
          HookPriority.ANNEALING] ∧
    (t.anneal_after_epochs av freq).after_epochs.hooks =
      t.after_epochs.hooks ++
        [Hook.mk (if av.isCallable then av.obj else av.annealMethod) freq
          HookPriority.ANNEALING] :=
  ⟨rfl, rfl, rfl, rfl⟩

end TFSnippet
